import Mathlib

/-!
Verification of the results scoring and aggregation core of the automl
benchmark (automl/results.py): Result variants and metric evaluation,
TaskResult orchestration, Scoreboard persistence and file-name scope
resolution.  Python code is shallowly embedded: dataframes become lists of
rows, machine floats become rationals (with symbolic constructors for the
two irrational/black-box numeric results no claim depends on), fallible
code returns Except, and the filesystem is an explicit map from paths to
file contents.
-/

namespace AutoML

/-- A Python runtime value as it occurs in a predictions dataframe or a
score record.  Finite floats are modelled as rationals; vint keeps the
int/float dtype distinction visible (pandas read_csv yields int columns
for integer CSV data).  vsqrt q stands for math.sqrt q (irrational in
general) and vblackbox for the result of a black-box external numeric
routine (log_loss); no claim depends on either numeric value. -/
inductive Value where
  | vint (n : ℤ)
  | vrat (q : ℚ)
  | vnan
  | vstr (s : String)
  | vsqrt (q : ℚ)
  | vblackbox (tag : String)
deriving DecidableEq, Repr

/-- The kinds of Python exceptions the embedded code can raise, plus an
explicit marker (unmodelled) for attribute-call outcomes the embedding
leaves undetermined: calling a double-underscore object-protocol
attribute through the hasattr dispatch of evaluate returns a value for
some names and raises TypeError for others, with the exact attribute set
depending on the Python version, so those outcomes are marked instead of
asserted; no theorem relies on the marker. -/
inductive EvalError where
  | valueError (msg : String)
  | attributeError (attr : String)
  | typeError (msg : String)
  | indexError
  | unmodelled (attr : String)
deriving DecidableEq, Repr

deriving instance DecidableEq for Except

/-- A pandas DataFrame: named columns and positional rows.  pandas frames
are rectangular; accessors below use defaults for the (unreachable) ragged
case. -/
structure DataFrame where
  cols : List String
  rows : List (List Value)
deriving DecidableEq, Repr

/-- Column i of a frame as a vector (df.iloc[:, i] for a non-negative
position). -/
def DataFrame.colAt (df : DataFrame) (i : Nat) : List Value :=
  df.rows.map (fun r => r.getD i Value.vnan)

/-- Coerce a value to a rational number the way numeric numpy/sklearn code
consumes it; strings and symbolic values are not numbers.  (Python would
also parse numeric strings in some places; no claim depends on that.) -/
def Value.toQ : Value → Except EvalError ℚ
  | .vint n => .ok (n : ℚ)
  | .vrat q => .ok q
  | _ => .error (.typeError "not numeric")

/-- numpy astype(float) on one cell: ints become floats, floats and NaN
stay, anything else raises. -/
def Value.castFloat : Value → Except EvalError Value
  | .vint n => .ok (.vrat (n : ℚ))
  | .vrat q => .ok (.vrat q)
  | .vnan => .ok .vnan
  | _ => .error (.valueError "could not convert to float")

/-- Whether a value carries float dtype (rationals model finite floats,
NaN is a float). -/
def Value.isFloat : Value → Bool
  | .vrat _ => true
  | .vnan => true
  | _ => false

/-- Modelled from the spec: datautils.accuracy_score (not under src) is
exact-match accuracy, the fraction of positions where prediction equals
truth. -/
def accuracy_score (truth preds : List ℚ) : ℚ :=
  if truth.length = 0 then 0
  else ((truth.zip preds).countP (fun x => x.1 == x.2) : ℚ) / (truth.length : ℚ)

/-- Modelled from the spec: datautils.mean_squared_error (not under src)
is the mean of squared differences. -/
def mean_squared_error (truth preds : List ℚ) : ℚ :=
  if truth.length = 0 then 0
  else (((truth.zip preds).map (fun x => (x.1 - x.2) ^ 2)).sum) / (truth.length : ℚ)

/-- Scores carried by the positive-class rows (truth encoded 1). -/
def aucPos (yTrue : List ℤ) (yScore : List ℚ) : List ℚ :=
  ((yTrue.zip yScore).filter (fun x => x.1 == 1)).map (fun x => x.2)

/-- Scores carried by the negative-class rows. -/
def aucNeg (yTrue : List ℤ) (yScore : List ℚ) : List ℚ :=
  ((yTrue.zip yScore).filter (fun x => !(x.1 == 1))).map (fun x => x.2)

/-- Ranking credit of one (positive, negative) score pair: full credit
when the positive score is higher, half on a tie. -/
def aucPairScore (p n : ℚ) : ℚ := if n < p then 1 else if n == p then 1/2 else 0

/-- Modelled from the spec: datautils.roc_auc_score (not under src) is
ROC-AUC of a score vector against binary truth (positive class encoded 1):
the fraction of (positive, negative) pairs ranked correctly, ties counted
half.  (Division by a zero pair count yields 0 under rational division.) -/
def roc_auc_score (yTrue : List ℤ) (yScore : List ℚ) : ℚ :=
  ((aucPos yTrue yScore).map (fun p =>
      ((aucNeg yTrue yScore).map (fun n => aucPairScore p n)).sum)).sum
    / (((aucPos yTrue yScore).length : ℚ) * ((aucNeg yTrue yScore).length : ℚ))

/-- The metric list Result.__init__ installs on every real result. -/
def supportedMetrics : List String := ["acc", "logloss", "mse", "rmse", "auc"]

/-- The attributes Result.__init__ sets: truth is the last column, the
predictions vector the second-to-last, and the metric list.  Raises
IndexError when the frame has fewer than two columns (iloc[:, -2]). -/
structure BaseData where
  truth : List Value
  predictions : List Value
  metrics : List String
deriving DecidableEq, Repr

/-- Result.__init__ (results.py lines 257-263). -/
def Result.base_init (df : DataFrame) : Except EvalError BaseData :=
  if df.cols.length < 2 then .error .indexError
  else .ok { truth := df.colAt (df.cols.length - 1)
           , predictions := df.colAt (df.cols.length - 2)
           , metrics := supportedMetrics }

/-- State of a constructed ClassificationResult: class labels from the
column names (all but the last two), the probability matrix cast to float,
label-encoded truth and predictions, and the problem-type tag. -/
structure CData where
  classes : List String
  probabilities : List (List ℚ)
  truth : List ℤ
  predictions : List ℤ
  type : String
  metrics : List String
deriving DecidableEq, Repr

/-- State of a constructed RegressionResult: truth cast to float,
predictions kept as loaded (results.py line 336 casts only truth). -/
structure RData where
  truth : List Value
  predictions : List Value
  type : String
  metrics : List String
deriving DecidableEq, Repr

/-- Modelled from the spec: the label encoder of data.Feature (not under
src) maps a class label to its index in the class list (columns are
written sorted alphabetically by class label, so index 1 is the positive
class).  A label that is not a known class raises. -/
def encodeLabel (classes : List String) : Value → Except EvalError ℤ
  | .vstr s =>
      match classes.findIdx? (fun c => c == s) with
      | some i => .ok (i : ℤ)
      | none => .error (.valueError "unseen label")
  | _ => .error (.valueError "unseen label")

/-- ClassificationResult.__init__ (results.py lines 309-316): classes are
the column names except the last two, probabilities the corresponding cell
block cast to float, the type tag binomial exactly for two classes, and
truth and predictions label-encoded (encode_predictions_and_truth is the
module constant False, so the autoencode branch always transforms). -/
def ClassificationResult.init (df : DataFrame) : Except EvalError CData := do
  let base ← Result.base_init df
  let classes := df.cols.dropLast.dropLast
  let probabilities ← df.rows.mapM (fun r => (r.take (df.cols.length - 2)).mapM Value.toQ)
  let ty := if classes.length = 2 then "binomial" else "multinomial"
  let truth ← base.truth.mapM (encodeLabel classes)
  let predictions ← base.predictions.mapM (encodeLabel classes)
  .ok { classes := classes, probabilities := probabilities, truth := truth
      , predictions := predictions, type := ty, metrics := base.metrics }

/-- RegressionResult.__init__ (results.py lines 334-338). -/
def RegressionResult.init (df : DataFrame) : Except EvalError RData := do
  let base ← Result.base_init df
  let truth ← base.truth.mapM Value.castFloat
  .ok { truth := truth, predictions := base.predictions
      , type := "regression", metrics := base.metrics }

/-- The Result variant produced by loading a predictions artifact. -/
inductive ResultV where
  | noResult
  | classification (c : CData)
  | regression (r : RData)
deriving DecidableEq, Repr

/-- ClassificationResult.auc (results.py lines 318-321): raises a
ValueError unless the type tag is binomial, otherwise ROC-AUC of the
probability column at index 1 against the encoded truth. -/
def ClassificationResult.auc (c : CData) : Except EvalError Value :=
  if c.type ≠ "binomial" then
    .error (.valueError "AUC metric is only supported for binary classification")
  else
    .ok (.vrat (roc_auc_score c.truth (c.probabilities.map (fun row => row.getD 1 0))))

/-- Metric methods of ClassificationResult: auc and logloss overridden,
acc, mse and rmse inherited from Result but operating on the encoded
truth and prediction vectors the constructor reassigned.  Names with no
metric method fall to the base evaluate error branch (line 283), which
formats a ValueError naming the metric and the type tag. -/
def CData.evalMetric (c : CData) : String → Except EvalError Value
  | "acc" => .ok (.vrat (accuracy_score (c.truth.map (fun n => (n : ℚ)))
      (c.predictions.map (fun n => (n : ℚ)))))
  | "logloss" => .ok (.vblackbox "log_loss")
  | "mse" => .ok (.vrat (mean_squared_error (c.truth.map (fun n => (n : ℚ)))
      (c.predictions.map (fun n => (n : ℚ)))))
  | "rmse" => .ok (.vsqrt (mean_squared_error (c.truth.map (fun n => (n : ℚ)))
      (c.predictions.map (fun n => (n : ℚ)))))
  | "auc" => ClassificationResult.auc c
  | m => .error (.valueError ("Metric " ++ m ++ " is not supported for " ++ c.type))

/-- Metric methods of RegressionResult, all inherited from Result: acc,
mse and rmse coerce the raw vectors to numbers (sklearn raises on
non-numeric input), base auc returns numpy NaN, base logloss is the
black-box log_loss of the raw vectors. -/
def RData.evalMetric (r : RData) : String → Except EvalError Value
  | "acc" => do
      let t ← r.truth.mapM Value.toQ
      let p ← r.predictions.mapM Value.toQ
      .ok (.vrat (accuracy_score t p))
  | "logloss" => .ok (.vblackbox "log_loss")
  | "mse" => do
      let t ← r.truth.mapM Value.toQ
      let p ← r.predictions.mapM Value.toQ
      .ok (.vrat (mean_squared_error t p))
  | "rmse" => do
      let t ← r.truth.mapM Value.toQ
      let p ← r.predictions.mapM Value.toQ
      .ok (.vsqrt (mean_squared_error t p))
  | "auc" => .ok .vnan
  | m => .error (.valueError ("Metric " ++ m ++ " is not supported for " ++ r.type))

/-- Whether a name belongs to the double-underscore object protocol. -/
def dunderName (m : String) : Bool :=
  match m.toList with
  | '_' :: '_' :: _ => true
  | _ => false

/-- Over-approximation of the attribute names hasattr can find on a
ClassificationResult besides the five metric methods: the data attributes
its constructors set, the evaluate and autoencode methods, and the
double-underscore object protocol.  This is a superset of the real
attribute surface, so a name outside it is guaranteed to fail hasattr. -/
def ClassificationResult.nonMetricAttr (m : String) : Bool :=
  m ∈ ["df", "truth", "predictions", "target", "type", "metrics",
       "classes", "probabilities", "_autoencode", "evaluate"]
    || dunderName m

/-- Over-approximation of the attribute names hasattr can find on a
RegressionResult besides the five metric methods. -/
def RegressionResult.nonMetricAttr (m : String) : Bool :=
  m ∈ ["df", "truth", "predictions", "target", "type", "metrics", "evaluate"]
    || dunderName m

/-- Result.evaluate (results.py lines 280-283): getattr dispatch guarded
by hasattr.  The attribute surface is modelled per variant.  The five
metric methods evaluate normally (on NoResult all five are overridden to
return the NA sentinel).  hasattr also finds non-metric attributes, which
the source then calls with no arguments: on NoResult, missing_result is
the string NA and evaluate is a one-argument method, so both calls raise
TypeError; the data attributes of the real variants and the
double-underscore object protocol of every variant have varied call
outcomes (some return values, most raise TypeError, the exact dunder set
is version-dependent) and are marked unmodelled rather than asserted.
Only a name with no attribute at all reaches the unsupported-metric
branch (line 283), which formats a message reading self.type: a
ValueError for the real variants, but an AttributeError for NoResult,
whose constructor (line 288) never sets type. -/
def ResultV.evaluate : ResultV → String → Except EvalError Value
  | .noResult, m =>
      if m ∈ supportedMetrics then .ok (.vstr "NA")
      else if m == "missing_result" || m == "evaluate" then
        .error (.typeError "attribute is not callable as a zero-argument metric")
      else if dunderName m then .error (.unmodelled m)
      else .error (.attributeError "type")
  | .classification c, m =>
      if ClassificationResult.nonMetricAttr m then .error (.unmodelled m)
      else c.evalMetric m
  | .regression r, m =>
      if RegressionResult.nonMetricAttr m then .error (.unmodelled m)
      else r.evalMetric m

/-- The metrics attribute of a result object.  Real variants get it from
Result.__init__; NoResult.__init__ does not call the base constructor and
sets only missing_result, so reading result.metrics on a NoResult raises
AttributeError (modelled as none). -/
def ResultV.metricsAttr : ResultV → Option (List String)
  | .noResult => none
  | .classification c => some c.metrics
  | .regression r => some r.metrics

/-- TaskResult.load_predictions (results.py lines 149-163): a missing file
degrades to NoResult after a warning; an existing artifact dispatches on
column count, more than 2 columns giving a ClassificationResult and
anything else a RegressionResult.  The filesystem is passed explicitly as
a map from paths to the dataframe read_csv would produce. -/
def load_predictions (fs : String → Option DataFrame) (predictions_file : String) :
    Except EvalError ResultV :=
  match fs predictions_file with
  | some df =>
      if df.cols.length > 2 then (ClassificationResult.init df).map ResultV.classification
      else (RegressionResult.init df).map ResultV.regression
  | none => .ok .noResult

/-- Modelled from the spec: utils.Namespace (not under src) is an
attribute map with setattr and getattr; insertion order is irrelevant to
the claims, so it is embedded as a partial map from attribute names to
values. -/
def Ns : Type := String → Option Value

/-- Setting one attribute of a Namespace. -/
def nsSet (ns : Ns) (k : String) (v : Value) : Ns :=
  fun q => if q = k then some v else ns q

/-- A framework definition from the external resources registry; only the
version field is read by compute_scores. -/
structure FrameworkDef where
  version : String
deriving DecidableEq, Repr

/-- The metadata namespace compute_scores builds first. -/
def initScores (framework version task : String) (fold : ℤ) (mode utc : String) : Ns :=
  fun k =>
    if k = "framework" then some (.vstr framework)
    else if k = "version" then some (.vstr version)
    else if k = "task" then some (.vstr task)
    else if k = "fold" then some (.vint fold)
    else if k = "mode" then some (.vstr mode)
    else if k = "utc" then some (.vstr utc)
    else none

/-- TaskResult.compute_scores (results.py lines 229-245): look the
framework up in the external registry (raises when unknown), build the
metadata namespace, evaluate every requested metric on the result and
store it under the metric name, then mirror the value stored for the
first metric into the result attribute (metrics[0] raises IndexError on
an empty list).  The run mode, timestamp and registry are external inputs
passed explicitly; the result object is the explicit argument (the
memoized get_result path supplies one the same way). -/
def compute_scores (framework_definition : String → Option FrameworkDef)
    (run_mode utc task : String) (fold : ℤ) (result : ResultV)
    (framework_name : String) (metrics : List String) : Except EvalError Ns := do
  let fdef ← match framework_definition framework_name with
             | some d => Except.ok d
             | none => Except.error (.valueError "incorrect framework")
  let start := initScores framework_name fdef.version task fold run_mode utc
  let scores ← metrics.foldlM (fun ns m => do
    let score ← result.evaluate m
    return nsSet ns m score) start
  match metrics with
  | [] => Except.error .indexError
  | m0 :: _ =>
      match scores m0 with
      | some v => Except.ok (nsSet scores "result" v)
      | none => Except.error (.attributeError m0)

/-- Characters matched by the regex class of word char or hyphen used for
every name token in results.py (ASCII scope; the tokens the program
writes and reads are ASCII). -/
def isWordChar (c : Char) : Bool := c.isAlphanum || c == '_' || c == '-'

/-- A nonempty run of token characters, the language of one plus-quantified
token group. -/
def isToken (l : List Char) : Bool := !l.isEmpty && l.all isWordChar

/-- Whether pre is a prefix of l, character by character. -/
def startsWith : List Char → List Char → Bool
  | [], _ => true
  | _ :: _, [] => false
  | a :: as, b :: bs => a == b && startsWith as bs

/-- Strip the regex suffix dot-csv (the dot is a wildcard): the input must
end in some character followed by the literal csv, and the part before
those four characters is returned. -/
def stripCsvTail (s : List Char) : Option (List Char) :=
  match s.drop (s.length - 4) with
  | _ :: 'c' :: 's' :: 'v' :: [] =>
      if s.length ≥ 4 then some (s.take (s.length - 4)) else none
  | _ => none

/-- Whether splitting core at position i yields token, separator, token. -/
def validSplit (core sep : List Char) (i : Nat) : Bool :=
  isToken (core.take i) && startsWith sep (core.drop i)
    && isToken (core.drop (i + sep.length))

/-- Backtracking-regex match of token, separator, token against core with
a greedy first group: the largest split position wins. -/
def matchTwoTokens (core sep : List Char) : Option (List Char × List Char) :=
  match (List.range (core.length + 1)).reverse.find? (fun i => validSplit core sep i) with
  | some i => some (core.take i, core.drop (i + sep.length))
  | none => none

/-- Match of a literal prefix followed by one token group against core. -/
def matchPrefixToken (core pre : List Char) : Option (List Char) :=
  if startsWith pre core && isToken (core.drop pre.length) then
    some (core.drop pre.length)
  else none

/-- The four-character regex suffix dot-csv (the dot is a wildcard; see
stripCsvTail). -/
def dotCsv : List Char := ".csv".toList

/-- The literal global results file name. -/
def resultsLit : List Char := "results.csv".toList

/-- The literal results token. -/
def resultsName : List Char := "results".toList

/-- The underscore-delimited benchmark separator of the second pattern. -/
def sepBenchmark : List Char := "_benchmark_".toList

/-- The benchmark prefix of the third pattern. -/
def preBenchmark : List Char := "benchmark_".toList

/-- The underscore-delimited task separator of the fourth pattern. -/
def sepTask : List Char := "_task_".toList

/-- The task prefix of the fifth pattern. -/
def preTask : List Char := "task_".toList

/-- The scope a Scoreboard is tied to: optional framework, benchmark and
task names.  Python strings are embedded as lists of characters.  The
source represents an absent component as None (or False after from_file),
both falsy; absence is normalised to none here since only truthiness is
ever observed. -/
structure Scope where
  framework : Option (List Char)
  benchmark : Option (List Char)
  task : Option (List Char)
deriving DecidableEq, Repr

/-- The six patterns Scoreboard.from_file tries, in source order
(results.py lines 35-42). -/
inductive ScorePattern where
  | resultsFile
  | fwBenchmark
  | benchmarkOnly
  | fwTask
  | taskOnly
  | fwOnly
deriving DecidableEq, Repr

/-- re.fullmatch of one pattern against a basename, mapped to the scope
the from_file loop builds from the group dictionary (groups a pattern does
not declare stay absent). -/
def matchPattern : ScorePattern → List Char → Option Scope
  | .resultsFile, s =>
      if s = resultsLit then some ⟨none, none, none⟩ else none
  | .fwBenchmark, s =>
      (stripCsvTail s).bind fun core =>
        (matchTwoTokens core sepBenchmark).map fun p =>
          ⟨some p.1, some p.2, none⟩
  | .benchmarkOnly, s =>
      (stripCsvTail s).bind fun core =>
        (matchPrefixToken core preBenchmark).map fun b =>
          ⟨none, some b, none⟩
  | .fwTask, s =>
      (stripCsvTail s).bind fun core =>
        (matchTwoTokens core sepTask).map fun p =>
          ⟨some p.1, none, some p.2⟩
  | .taskOnly, s =>
      (stripCsvTail s).bind fun core =>
        (matchPrefixToken core preTask).map fun t =>
          ⟨none, none, some t⟩
  | .fwOnly, s =>
      (stripCsvTail s).bind fun core =>
        if isToken core then some ⟨some core, none, none⟩ else none

/-- The pattern list in its source priority order. -/
def scorePatterns : List ScorePattern :=
  [.resultsFile, .fwBenchmark, .benchmarkOnly, .fwTask, .taskOnly, .fwOnly]

/-- Scoreboard.from_file (results.py lines 29-58) restricted to the
basename: the loop tries each pattern in order and the first full match
determines the scope; no match returns None.  (The folder part only picks
the scores directory and is not modelled.) -/
def from_file_scope (basename : List Char) : Option Scope :=
  scorePatterns.findSome? (fun p => matchPattern p basename)

/-- Python truthiness of an optional string component. -/
def truthyO : Option (List Char) → Bool
  | none => false
  | some s => !s.isEmpty

/-- Scoreboard._score_file (results.py lines 128-144) restricted to the
file name it joins onto the scores directory: framework and task take
precedence over benchmark, and an all-absent scope maps to the global
results.csv. -/
def score_file_name (sc : Scope) : List Char :=
  if truthyO sc.framework then
    if truthyO sc.task then
      sc.framework.getD [] ++ sepTask ++ sc.task.getD [] ++ dotCsv
    else if truthyO sc.benchmark then
      sc.framework.getD [] ++ sepBenchmark ++ sc.benchmark.getD [] ++ dotCsv
    else
      sc.framework.getD [] ++ dotCsv
  else
    if truthyO sc.task then
      preTask ++ sc.task.getD [] ++ dotCsv
    else if truthyO sc.benchmark then
      preBenchmark ++ sc.benchmark.getD [] ++ dotCsv
    else
      resultsLit

/-- A nonempty digit run, the language of a plus-quantified digit group. -/
def isDigits (l : List Char) : Bool := !l.isEmpty && l.all Char.isDigit

/-- The natural number a digit run denotes (int of the fold group). -/
def digitsToNat (l : List Char) : ℕ :=
  l.foldl (fun a c => 10 * a + (c.toNat - 48)) 0

/-- The optional timestamp suffix body: eight digits, a literal T, six
digits. -/
def matchDT (dt : List Char) : Bool :=
  dt.length = 15 && (dt.take 8).all Char.isDigit
    && startsWith ['T'] (dt.drop 8) && (dt.drop 9).all Char.isDigit

/-- Match of the fold-and-optional-datetime part of the predictions
file-name pattern: a digit run, optionally followed by an underscore and a
timestamp.  The digit group cannot contain an underscore, so the split at
the first underscore is forced. -/
def matchFoldTail (r : List Char) : Option ℕ :=
  let fold := r.takeWhile (fun c => !(c == '_'))
  let rest := r.dropWhile (fun c => !(c == '_'))
  if !isDigits fold then none
  else
    match rest with
    | [] => some (digitsToNat fold)
    | '_' :: dt => if matchDT dt then some (digitsToNat fold) else none
    | _ => none

/-- Match of task, underscore, fold, optional timestamp, with a greedy
task group: the largest split wins. -/
def matchTaskFold (r : List Char) : Option (List Char × ℕ) :=
  match (List.range (r.length + 1)).reverse.find? (fun j =>
      isToken (r.take j) && startsWith ['_'] (r.drop j)
        && (matchFoldTail (r.drop (j + 1))).isSome) with
  | some j => (matchFoldTail (r.drop (j + 1))).map (fun f => (r.take j, f))
  | none => none

/-- re.fullmatch of the predictions file-name pattern of
TaskResult.score_from_predictions_file (results.py line 206) against a
basename: a lazy framework token, underscore, greedy task token,
underscore, digit fold, optional timestamp, dot-wildcard csv suffix.
Returns the framework, task and fold groups. -/
def predictions_name_match (basename : List Char) :
    Option (List Char × List Char × ℕ) :=
  (stripCsvTail basename).bind fun core =>
    match (List.range (core.length + 1)).find? (fun i =>
        isToken (core.take i) && startsWith ['_'] (core.drop i)
          && (matchTaskFold (core.drop (i + 1))).isSome) with
    | some i => (matchTaskFold (core.drop (i + 1))).map (fun p => (core.take i, p.1, p.2))
    | none => none

/-- TaskResult.score_from_predictions_file (results.py lines 203-218),
for a path that is a bare basename (the folder part does not influence any
claim): a name that does not match the pattern is logged and answered with
None; otherwise the predictions are loaded and compute_scores is called on
the loaded result with result.metrics as the metric list — an argument
expression that raises AttributeError when the result is a NoResult,
before compute_scores is entered. -/
def score_from_predictions_file (fs : String → Option DataFrame)
    (framework_definition : String → Option FrameworkDef) (run_mode utc : String)
    (path : String) : Except EvalError (Option Ns) :=
  match predictions_name_match path.toList with
  | none => .ok none
  | some (fw, task, fold) => do
      let result ← load_predictions fs path
      match result.metricsAttr with
      | none => Except.error (.attributeError "metrics")
      | some ms => do
          let ns ← compute_scores framework_definition run_mode utc task.asString
            (fold : ℤ) result fw.asString ms
          Except.ok (some ns)

/-- One line of a persisted scoreboard file: the header line carries the
column names, a data line one row of values. -/
inductive Line where
  | header (cols : List String)
  | data (row : List Value)
deriving DecidableEq, Repr

/-- The filesystem as a map from paths to csv file contents. -/
def FS : Type := String → Option (List Line)

/-- Modelled from the spec: utils.backup_file (not under src) preserves an
existing file under a backup name before it would be destroyed; embedded
as a rename to a distinct derived name (a no-op when the file does not
exist). -/
def backup_name (p : String) : String := p ++ ".bak"

/-- Modelled from the spec: the rename utils.backup_file performs. -/
def backup_file (fs : FS) (p : String) : FS :=
  match fs p with
  | none => fs
  | some c => fun q =>
      if q = backup_name p then some c
      else if q = p then none
      else fs q

/-- datautils.write_csv as black-box tabular output: a header line exactly
when asked, data lines for the rows, appended after the existing content
in append mode and replacing it otherwise.  (The frames written by
Scoreboard always carry the default index, so the index branch of save_df
is the constant False and is not modelled.) -/
def write_csv (df : DataFrame) (file : String) (headerFlag appendFlag : Bool)
    (fs : FS) : FS :=
  let lines := (if headerFlag then [Line.header df.cols] else [])
    ++ df.rows.map Line.data
  fun q =>
    if q = file then
      some ((if appendFlag then (fs file).getD [] else []) ++ lines)
    else fs q

/-- Scoreboard.save_df (results.py lines 69-86): an existing file is
backed up before a non-append save (new_format is the constant False, the
format-change detection being a todo); the file is written fresh with a
header unless it existed and append was requested, in which case rows are
appended without a header. -/
def save_df (fs : FS) (data_frame : DataFrame) (path : String) (append : Bool) : FS :=
  let exists_ := (fs path).isSome
  let new_format := false
  let fs1 := if new_format || (exists_ && !append) then backup_file fs path else fs
  let new_file := !exists_ || !append || new_format
  write_csv data_frame path new_file (!new_file) fs1

/-- A score record as a Python dict: keys with values in insertion order. -/
def Rec : Type := List (String × Value)

/-- Lookup of a key in a record (first binding wins, as in a dict whose
keys are unique). -/
def recLookup (r : Rec) (k : String) : Option Value :=
  (r.find? (fun kv => kv.1 == k)).map (fun kv => kv.2)

/-- Keys of ks appended to acc, first appearance order, no duplicates. -/
def addKeys (acc : List String) (ks : List String) : List String :=
  ks.foldl (fun a k => if a.contains k then a else a ++ [k]) acc

/-- The column list pandas derives from a list of dicts: union of the
keys in first-appearance order. -/
def frameCols (records : List Rec) : List String :=
  records.foldl (fun a r => addKeys a (r.map Prod.fst)) []

/-- datautils.to_data_frame on a list of dicts: columns are the key union
in first-appearance order, a record missing a column surfaces NaN. -/
def to_data_frame (records : List Rec) : DataFrame :=
  let cols := frameCols records
  { cols := cols
  , rows := records.map (fun r => cols.map (fun k => (recLookup r k).getD .vnan)) }

/-- Value of the named column in one positional row. -/
def rowLookup (cols : List String) (row : List Value) (k : String) : Option Value :=
  ((cols.zip row).find? (fun kv => kv.1 == k)).map (fun kv => kv.2)

/-- pandas reindex on columns: the frame projected to exactly the target
columns, absent ones filled with NaN. -/
def reindex (df : DataFrame) (target : List String) : DataFrame :=
  { cols := target
  , rows := df.rows.map (fun row => target.map (fun k => (rowLookup df.cols row k).getD .vnan)) }

/-- The fixed leading columns of Scoreboard.as_data_frame (results.py
line 105; the index list is empty, so none of them is removed). -/
def fixedCols : List String :=
  ["task", "framework", "fold", "result", "mode", "version", "utc"]

/-- Scoreboard.as_data_frame (results.py lines 95-111) on a board holding
raw records: materialize the records, return an empty frame unchanged
(the early return avoiding dtype conversion), otherwise reindex to the
fixed columns followed by the remaining columns sorted lexicographically.
pandas df.empty is true when the frame has no rows or no columns. -/
def as_data_frame (records : List Rec) : DataFrame :=
  let df := to_data_frame records
  if df.rows.isEmpty || df.cols.isEmpty then df
  else
    let dynamic := List.insertionSort (fun a b => a ≤ b)
      (df.cols.filter (fun c => !(fixedCols.contains c)))
    reindex df (fixedCols ++ dynamic)

/-- A Scoreboard holding raw records: its scope components, its scores
directory and its records (the loaded-dataframe form of the scores field
is not needed by any claim). -/
structure Scoreboard where
  scores : List Rec
  framework_name : Option (List Char)
  benchmark_name : Option (List Char)
  task_name : Option (List Char)
  scores_dir : String

/-- The scope triple of a board. -/
def Scoreboard.scope (b : Scoreboard) : Scope :=
  ⟨b.framework_name, b.benchmark_name, b.task_name⟩

/-- Scoreboard._score_file: the scope file name joined onto the scores
directory. -/
def Scoreboard.score_file (b : Scoreboard) : String :=
  b.scores_dir ++ "/" ++ (score_file_name b.scope).asString

/-- Scoreboard.save (results.py lines 116-117): save_df of the
materialized records at the scope path. -/
def Scoreboard.save (b : Scoreboard) (append : Bool) (fs : FS) : FS :=
  save_df fs (as_data_frame b.scores) b.score_file append

/-- A character that is alphanumeric or a hyphen: a token character that
is not the underscore separator. -/
def safeChar (c : Char) : Bool := c.isAlphanum || c == '-'

/-- A nonempty name over alphanumeric or hyphen characters; such names
cannot collide with the underscore-delimited segments of the scoreboard
file-name grammar. -/
def safeName (l : List Char) : Bool := !l.isEmpty && l.all safeChar

/- ======================= Theorems ======================= -/

/-- startsWith is prefix decomposition. -/
theorem startsWith_iff (pre l : List Char) :
    startsWith pre l = true ↔ ∃ r, l = pre ++ r := by
  induction pre generalizing l with
  | nil => simp [startsWith]
  | cons a as ih =>
      cases l with
      | nil => simp [startsWith]
      | cons b bs =>
          simp only [startsWith, Bool.and_eq_true, beq_iff_eq]
          constructor
          · rintro ⟨rfl, hs⟩
            obtain ⟨r, rfl⟩ := (ih bs).mp hs
            exact ⟨r, rfl⟩
          · rintro ⟨r, hr⟩
            rw [List.cons_append] at hr
            cases hr
            exact ⟨rfl, (ih _).mpr ⟨r, rfl⟩⟩

/-- A list starts with itself followed by anything. -/
theorem startsWith_append (pre r : List Char) : startsWith pre (pre ++ r) = true :=
  (startsWith_iff pre (pre ++ r)).mpr ⟨r, rfl⟩

/-- Stripping the csv tail from a name built by appending it. -/
theorem stripCsvTail_append (core : List Char) :
    stripCsvTail (core ++ dotCsv) = some core := by
  have hlen : (core ++ dotCsv).length = core.length + 4 := by
    simp [List.length_append, dotCsv]
  have hdrop : (core ++ dotCsv).drop core.length = dotCsv :=
    List.drop_left core _
  have htake : (core ++ dotCsv).take core.length = core :=
    List.take_left core _
  unfold stripCsvTail
  rw [hlen]
  simp only [Nat.add_sub_cancel]
  rw [hdrop, htake]
  simp [dotCsv]

/-- A valid split decomposes the core around the separator. -/
theorem validSplit_decomp (core sep : List Char) (i : Nat)
    (h : validSplit core sep i = true) :
    core = core.take i ++ sep ++ core.drop (i + sep.length)
      ∧ isToken (core.take i) = true ∧ isToken (core.drop (i + sep.length)) = true := by
  unfold validSplit at h
  simp only [Bool.and_eq_true] at h
  obtain ⟨⟨h1, h2⟩, h3⟩ := h
  obtain ⟨r, hr⟩ := (startsWith_iff _ _).mp h2
  have hdecomp : core = core.take i ++ (sep ++ r) := by
    conv_lhs => rw [← List.take_append_drop i core]
    rw [hr]
  have hrr : r = core.drop (i + sep.length) := by
    have : (core.drop i).drop sep.length = core.drop (i + sep.length) :=
      List.drop_drop sep.length i core
    rw [hr] at this
    rw [List.drop_left sep r] at this
    exact this
  refine ⟨?_, h1, h3⟩
  calc core = core.take i ++ (sep ++ r) := hdecomp
    _ = core.take i ++ sep ++ core.drop (i + sep.length) := by
        rw [hrr, List.append_assoc]

/-- What a successful two-token match tells us. -/
theorem matchTwoTokens_some (core sep a b : List Char)
    (h : matchTwoTokens core sep = some (a, b)) :
    core = a ++ sep ++ b ∧ isToken a = true ∧ isToken b = true := by
  unfold matchTwoTokens at h
  cases hf : (List.range (core.length + 1)).reverse.find? (fun i => validSplit core sep i) with
  | none => rw [hf] at h; exact absurd h (by simp)
  | some i =>
      rw [hf] at h
      have hv : validSplit core sep i = true := List.find?_some hf
      obtain ⟨hd, ht1, ht2⟩ := validSplit_decomp core sep i hv
      injection h with h
      injection h with h1 h2
      subst h1; subst h2
      exact ⟨hd, ht1, ht2⟩

/-- A two-token match succeeds, and returns the decomposition, when a
valid decomposition exists and every valid split yields the same
components. -/
theorem matchTwoTokens_complete (core sep a b : List Char)
    (hdec : core = a ++ sep ++ b) (ha : isToken a = true) (hb : isToken b = true)
    (huniq : ∀ i, validSplit core sep i = true →
      core.take i = a ∧ core.drop (i + sep.length) = b) :
    matchTwoTokens core sep = some (a, b) := by
  have htake : core.take a.length = a := by
    rw [hdec, List.append_assoc]
    exact List.take_left a _
  have hdrop : core.drop (a.length + sep.length) = b := by
    rw [hdec]
    have : ((a ++ sep) ++ b).drop (a ++ sep).length = b := List.drop_left _ b
    rw [List.length_append] at this
    exact this
  have hvalid : validSplit core sep a.length = true := by
    unfold validSplit
    simp only [Bool.and_eq_true]
    refine ⟨⟨?_, ?_⟩, ?_⟩
    · rw [htake]; exact ha
    · have : core.drop a.length = sep ++ b := by
        rw [hdec, List.append_assoc]
        exact List.drop_left a _
      rw [this]
      exact startsWith_append sep b
    · rw [hdrop]; exact hb
  have hmem : a.length ∈ (List.range (core.length + 1)).reverse := by
    rw [List.mem_reverse, List.mem_range]
    have : a.length ≤ core.length := by
      rw [hdec]; simp only [List.length_append]; omega
    omega
  unfold matchTwoTokens
  cases hf : (List.range (core.length + 1)).reverse.find? (fun i => validSplit core sep i) with
  | none =>
      exfalso
      have := List.find?_eq_none.mp hf a.length hmem
      exact this hvalid
  | some i =>
      have hv : validSplit core sep i = true := List.find?_some hf
      obtain ⟨h1, h2⟩ := huniq i hv
      show some (core.take i, core.drop (i + sep.length)) = some (a, b)
      rw [h1, h2]

/-- What a successful prefix-token match tells us. -/
theorem matchPrefixToken_some (core pre t : List Char)
    (h : matchPrefixToken core pre = some t) :
    core = pre ++ t ∧ isToken t = true := by
  unfold matchPrefixToken at h
  by_cases hc : (startsWith pre core && isToken (core.drop pre.length)) = true
  · rw [if_pos hc] at h
    simp only [Bool.and_eq_true] at hc
    obtain ⟨r, hr⟩ := (startsWith_iff _ _).mp hc.1
    injection h with h
    subst h
    constructor
    · rw [hr, List.drop_left pre r]
    · exact hc.2
  · rw [if_neg hc] at h
    exact absurd h (by simp)

/-- A prefix-token match succeeds on a name built from the prefix and a
token. -/
theorem matchPrefixToken_complete (pre t : List Char) (ht : isToken t = true) :
    matchPrefixToken (pre ++ t) pre = some t := by
  unfold matchPrefixToken
  rw [List.drop_left pre t, startsWith_append]
  simp [ht]

/-- Splitting two equal lists at their first underscore: if neither left
part contains an underscore, the parts agree. -/
theorem append_underscore_inj (a : List Char) :
    ∀ (b u v : List Char), '_' ∉ a → '_' ∉ b →
      a ++ '_' :: u = b ++ '_' :: v → a = b ∧ u = v := by
  induction a with
  | nil =>
      intro b u v _ hb h
      cases b with
      | nil => simpa using h
      | cons c bs =>
          rw [List.nil_append, List.cons_append] at h
          injection h with h1 _
          exact absurd (h1 ▸ List.mem_cons_self c bs) (h1 ▸ hb)
  | cons c as ih =>
      intro b u v ha hb h
      cases b with
      | nil =>
          rw [List.nil_append, List.cons_append] at h
          injection h with h1 _
          exact absurd (List.mem_cons_self c as) (h1 ▸ ha)
      | cons d bs =>
          rw [List.cons_append, List.cons_append] at h
          injection h with h1 h2
          have hha : '_' ∉ as := fun hm => ha (List.mem_cons_of_mem c hm)
          have hhb : '_' ∉ bs := fun hm => hb (List.mem_cons_of_mem d hm)
          obtain ⟨e1, e2⟩ := ih bs u v hha hhb h2
          exact ⟨by rw [h1, e1], e2⟩

/-- Safe characters are word characters. -/
theorem safeChar_isWordChar {c : Char} (h : safeChar c = true) : isWordChar c = true := by
  unfold safeChar at h
  unfold isWordChar
  cases hA : c.isAlphanum <;> cases hH : (c == '-') <;> simp [hA, hH] at h ⊢

/-- A safe name contains no underscore. -/
theorem safe_not_underscore {l : List Char} (h : safeName l = true) : '_' ∉ l := by
  intro hm
  unfold safeName at h
  simp only [Bool.and_eq_true, List.all_eq_true] at h
  have := h.2 '_' hm
  exact absurd this (by decide)

/-- A safe name has underscore count zero. -/
theorem safe_count {l : List Char} (h : safeName l = true) : l.count '_' = 0 :=
  List.count_eq_zero.mpr (safe_not_underscore h)

/-- A safe name is a token. -/
theorem safe_isToken {l : List Char} (h : safeName l = true) : isToken l = true := by
  unfold safeName at h
  unfold isToken
  simp only [Bool.and_eq_true, List.all_eq_true] at h ⊢
  exact ⟨h.1, fun c hc => safeChar_isWordChar (h.2 c hc)⟩

/-- A two-token match fails when the core has fewer underscores than the
separator. -/
theorem matchTwoTokens_none_of_count (core sep : List Char)
    (h : core.count '_' < sep.count '_') : matchTwoTokens core sep = none := by
  cases hm : matchTwoTokens core sep with
  | none => rfl
  | some p =>
      exfalso
      obtain ⟨hdec, -, -⟩ := matchTwoTokens_some core sep p.1 p.2 (by rw [hm])
      rw [hdec] at h
      simp only [List.count_append] at h
      omega

/-- A prefix-token match fails when the core has fewer underscores than
the prefix. -/
theorem matchPrefixToken_none_of_count (core pre : List Char)
    (h : core.count '_' < pre.count '_') : matchPrefixToken core pre = none := by
  cases hm : matchPrefixToken core pre with
  | none => rfl
  | some t =>
      exfalso
      obtain ⟨hdec, -⟩ := matchPrefixToken_some core pre t hm
      rw [hdec] at h
      simp only [List.count_append] at h
      omega

/-- A name containing an underscore is not the global results file name. -/
theorem ne_results_of_underscore {l : List Char} (h : '_' ∈ l) :
    l ≠ resultsLit := by
  intro he
  rw [he] at h
  exact absurd h (by decide)

/-- Scope resolution of a file named framework dot csv, for a safe
framework name other than the reserved word results. -/
theorem from_file_fwOnly (f : List Char) (hf : safeName f = true)
    (hne : f ≠ resultsName) :
    from_file_scope (f ++ dotCsv) = some ⟨some f, none, none⟩ := by
  have hcnt : f.count '_' = 0 := safe_count hf
  have e1 : matchPattern .resultsFile (f ++ dotCsv) = none := by
    have hne2 : f ++ dotCsv ≠ resultsLit := by
      intro h
      apply hne
      have h2 : f ++ dotCsv = resultsName ++ dotCsv := by
        rw [h]; decide
      exact List.append_cancel_right h2
    simp [matchPattern, hne2]
  have e2 : matchPattern .fwBenchmark (f ++ dotCsv) = none := by
    have hm : matchTwoTokens f sepBenchmark = none :=
      matchTwoTokens_none_of_count _ _ (by rw [hcnt]; decide)
    simp [matchPattern, stripCsvTail_append, hm]
  have e3 : matchPattern .benchmarkOnly (f ++ dotCsv) = none := by
    have hm : matchPrefixToken f preBenchmark = none :=
      matchPrefixToken_none_of_count _ _ (by rw [hcnt]; decide)
    simp [matchPattern, stripCsvTail_append, hm]
  have e4 : matchPattern .fwTask (f ++ dotCsv) = none := by
    have hm : matchTwoTokens f sepTask = none :=
      matchTwoTokens_none_of_count _ _ (by rw [hcnt]; decide)
    simp [matchPattern, stripCsvTail_append, hm]
  have e5 : matchPattern .taskOnly (f ++ dotCsv) = none := by
    have hm : matchPrefixToken f preTask = none :=
      matchPrefixToken_none_of_count _ _ (by rw [hcnt]; decide)
    simp [matchPattern, stripCsvTail_append, hm]
  have e6 : matchPattern .fwOnly (f ++ dotCsv) = some ⟨some f, none, none⟩ := by
    simp [matchPattern, stripCsvTail_append, safe_isToken hf]
  simp [from_file_scope, scorePatterns, List.findSome?, e1, e2, e3, e4, e5, e6]

/-- Two-token matching of a name built as token, separator, token is
exact when the tokens are underscore-free and the separator carries its
underscores: the split position is forced. -/
theorem matchTwoTokens_exact (f t mid : List Char)
    (hf : isToken f = true) (ht : isToken t = true)
    (hnf : '_' ∉ f) (hnt : '_' ∉ t) (hmid : mid.count '_' = 1) :
    matchTwoTokens (f ++ ('_' :: mid) ++ t) ('_' :: mid) = some (f, t) := by
  apply matchTwoTokens_complete _ _ _ _ rfl hf ht
  intro i hv
  obtain ⟨hdec, -, -⟩ := validSplit_decomp _ _ i hv
  set core := f ++ ('_' :: mid) ++ t with hcore
  set a := core.take i
  set b := core.drop (i + ('_' :: mid).length)
  have hcnt : core.count '_' = 2 := by
    simp [hcore, List.count_append, List.count_eq_zero.mpr hnf,
      List.count_eq_zero.mpr hnt, List.count_cons, hmid]
  have hcnt2 := congrArg (List.count '_') hdec
  rw [hcnt] at hcnt2
  simp only [List.count_append, List.count_cons, hmid, beq_self_eq_true, if_true] at hcnt2
  have hna : '_' ∉ a := List.count_eq_zero.mp (by omega)
  have hnb : '_' ∉ b := List.count_eq_zero.mp (by omega)
  have hshape : f ++ '_' :: (mid ++ t) = a ++ '_' :: (mid ++ b) := by
    have h1 : core = f ++ '_' :: (mid ++ t) := by
      rw [hcore, List.append_assoc]; rfl
    have h2 : a ++ ('_' :: mid) ++ b = a ++ '_' :: (mid ++ b) := by
      rw [List.append_assoc]; rfl
    rw [← h1, ← h2]
    exact hdec
  obtain ⟨e1, e2⟩ := append_underscore_inj f a (mid ++ t) (mid ++ b) hnf hna hshape
  exact ⟨e1.symm, (List.append_cancel_left e2).symm⟩

/-- Two-token matching with a different underscore-delimited separator
fails on such a name when the two separator bodies cannot head-agree. -/
theorem matchTwoTokens_cross_none (f t mid mid' : List Char)
    (hnf : '_' ∉ f) (hnt : '_' ∉ t)
    (hmid : mid.count '_' = 1) (hmid' : mid'.count '_' = 1)
    (hneq : ∀ r₁ r₂ : List Char, mid ++ r₁ = mid' ++ r₂ → False) :
    matchTwoTokens (f ++ ('_' :: mid) ++ t) ('_' :: mid') = none := by
  cases hm : matchTwoTokens (f ++ ('_' :: mid) ++ t) ('_' :: mid') with
  | none => rfl
  | some p =>
      exfalso
      obtain ⟨hdec, -, -⟩ := matchTwoTokens_some _ _ p.1 p.2 hm
      have hcnt : (f ++ ('_' :: mid) ++ t).count '_' = 2 := by
        simp [List.count_append, List.count_eq_zero.mpr hnf,
          List.count_eq_zero.mpr hnt, List.count_cons, hmid]
      have hcnt2 := congrArg (List.count '_') hdec
      rw [hcnt] at hcnt2
      simp only [List.count_append, List.count_cons, hmid', beq_self_eq_true, if_true] at hcnt2
      have hna : '_' ∉ p.1 := List.count_eq_zero.mp (by omega)
      have hshape : f ++ '_' :: (mid ++ t) = p.1 ++ '_' :: (mid' ++ p.2) := by
        have h1 : f ++ ('_' :: mid) ++ t = f ++ '_' :: (mid ++ t) := by
          rw [List.append_assoc]; rfl
        have h2 : p.1 ++ ('_' :: mid') ++ p.2 = p.1 ++ '_' :: (mid' ++ p.2) := by
          rw [List.append_assoc]; rfl
        rw [← h1, ← h2]
        exact hdec
      obtain ⟨-, e2⟩ := append_underscore_inj f p.1 (mid ++ t) (mid' ++ p.2) hnf hna hshape
      exact hneq t p.2 e2

/-- A successful prefix-token match on a name whose first underscore ends
the prefix forces the name part before the underscore to equal the prefix
body. -/
theorem matchPrefixToken_first_underscore (f rest pre : List Char)
    (hnf : '_' ∉ f) (hpre : '_' ∉ pre) (r : List Char)
    (h : matchPrefixToken (f ++ '_' :: rest) (pre ++ ['_']) = some r) : f = pre := by
  obtain ⟨hdec, -⟩ := matchPrefixToken_some _ _ r h
  have hdec' : f ++ '_' :: rest = pre ++ '_' :: r := by
    rw [hdec, List.append_assoc]; rfl
  exact (append_underscore_inj f pre rest r hnf hpre hdec').1

/-- startsWith fails on differing heads. -/
theorem startsWith_head_ne (a b : Char) (pre l : List Char) (h : (a == b) = false) :
    startsWith (a :: pre) (b :: l) = false := by
  simp [startsWith, h]

/-- The separator bodies of the task and benchmark patterns do not agree
on any continuation. -/
theorem preTask_preBenchmark_clash :
    ∀ r₁ r₂ : List Char, preTask ++ r₁ = preBenchmark ++ r₂ → False := by
  intro r₁ r₂ h
  have h1 : preTask ++ r₁ = 't' :: ("ask_".toList ++ r₁) := by
    rw [show preTask = 't' :: "ask_".toList by decide]; rfl
  have h2 : preBenchmark ++ r₂ = 'b' :: ("enchmark_".toList ++ r₂) := by
    rw [show preBenchmark = 'b' :: "enchmark_".toList by decide]; rfl
  rw [h1, h2] at h
  injection h with h0 _
  exact absurd h0 (by decide)

/-- Scope resolution of a file named framework, task separator, task, for
safe names with the framework not the reserved word benchmark. -/
theorem from_file_fwTask (f t : List Char) (hf : safeName f = true)
    (ht : safeName t = true) (hfb : f ≠ "benchmark".toList) :
    from_file_scope (f ++ sepTask ++ t ++ dotCsv) = some ⟨some f, none, some t⟩ := by
  have hnf : '_' ∉ f := safe_not_underscore hf
  have hnt : '_' ∉ t := safe_not_underscore ht
  have hsepT : sepTask = '_' :: preTask := by decide
  have hsepB : sepBenchmark = '_' :: preBenchmark := by decide
  have hu : '_' ∈ f ++ sepTask ++ t ++ dotCsv :=
    List.mem_append.mpr (Or.inl (List.mem_append.mpr (Or.inl
      (List.mem_append.mpr (Or.inr (by decide))))))
  have e1 : matchPattern .resultsFile (f ++ sepTask ++ t ++ dotCsv) = none := by
    simp only [matchPattern]
    rw [if_neg (ne_results_of_underscore hu)]
  have hm2 : matchTwoTokens (f ++ sepTask ++ t) sepBenchmark = none := by
    rw [hsepT, hsepB]
    exact matchTwoTokens_cross_none f t preTask preBenchmark hnf hnt
      (by decide) (by decide) preTask_preBenchmark_clash
  have e2 : matchPattern .fwBenchmark (f ++ sepTask ++ t ++ dotCsv) = none := by
    simp only [matchPattern, stripCsvTail_append, Option.some_bind, hm2, Option.map_none']
  have hm3 : matchPrefixToken (f ++ sepTask ++ t) preBenchmark = none := by
    cases hm : matchPrefixToken (f ++ sepTask ++ t) preBenchmark with
    | none => rfl
    | some r =>
        exfalso
        apply hfb
        have hb : preBenchmark = "benchmark".toList ++ ['_'] := by decide
        have hcore : f ++ sepTask ++ t = f ++ '_' :: (preTask ++ t) := by
          rw [hsepT, List.append_assoc]; rfl
        rw [hcore, hb] at hm
        exact matchPrefixToken_first_underscore f (preTask ++ t) "benchmark".toList
          hnf (by decide) r hm
  have e3 : matchPattern .benchmarkOnly (f ++ sepTask ++ t ++ dotCsv) = none := by
    simp only [matchPattern, stripCsvTail_append, Option.some_bind, hm3, Option.map_none']
  have hm4 : matchTwoTokens (f ++ sepTask ++ t) sepTask = some (f, t) := by
    rw [hsepT]
    exact matchTwoTokens_exact f t preTask (safe_isToken hf) (safe_isToken ht)
      hnf hnt (by decide)
  have e4 : matchPattern .fwTask (f ++ sepTask ++ t ++ dotCsv)
      = some ⟨some f, none, some t⟩ := by
    simp only [matchPattern, stripCsvTail_append, Option.some_bind, hm4, Option.map_some']
  simp only [from_file_scope, scorePatterns, List.findSome?_cons, e1, e2, e3, e4]

/-- Scope resolution of a file named framework, benchmark separator,
benchmark, for safe names. -/
theorem from_file_fwBenchmark (f b : List Char) (hf : safeName f = true)
    (hb : safeName b = true) :
    from_file_scope (f ++ sepBenchmark ++ b ++ dotCsv)
      = some ⟨some f, some b, none⟩ := by
  have hnf : '_' ∉ f := safe_not_underscore hf
  have hnb : '_' ∉ b := safe_not_underscore hb
  have hsepB : sepBenchmark = '_' :: preBenchmark := by decide
  have hu : '_' ∈ f ++ sepBenchmark ++ b ++ dotCsv :=
    List.mem_append.mpr (Or.inl (List.mem_append.mpr (Or.inl
      (List.mem_append.mpr (Or.inr (by decide))))))
  have e1 : matchPattern .resultsFile (f ++ sepBenchmark ++ b ++ dotCsv) = none := by
    simp only [matchPattern]
    rw [if_neg (ne_results_of_underscore hu)]
  have hm2 : matchTwoTokens (f ++ sepBenchmark ++ b) sepBenchmark = some (f, b) := by
    rw [hsepB]
    exact matchTwoTokens_exact f b preBenchmark (safe_isToken hf) (safe_isToken hb)
      hnf hnb (by decide)
  have e2 : matchPattern .fwBenchmark (f ++ sepBenchmark ++ b ++ dotCsv)
      = some ⟨some f, some b, none⟩ := by
    simp only [matchPattern, stripCsvTail_append, Option.some_bind, hm2, Option.map_some']
  simp only [from_file_scope, scorePatterns, List.findSome?_cons, e1, e2]

/-- Scope resolution of a task-only file name, for a safe task name. -/
theorem from_file_taskOnly (t : List Char) (ht : safeName t = true) :
    from_file_scope (preTask ++ t ++ dotCsv) = some ⟨none, none, some t⟩ := by
  have hnt : '_' ∉ t := safe_not_underscore ht
  have hcnt : (preTask ++ t).count '_' = 1 := by
    simp [List.count_append, List.count_eq_zero.mpr hnt,
      show preTask.count '_' = 1 by decide]
  have hu : '_' ∈ preTask ++ t ++ dotCsv :=
    List.mem_append.mpr (Or.inl (List.mem_append.mpr (Or.inl (by decide))))
  have e1 : matchPattern .resultsFile (preTask ++ t ++ dotCsv) = none := by
    simp only [matchPattern]
    rw [if_neg (ne_results_of_underscore hu)]
  have hm2 : matchTwoTokens (preTask ++ t) sepBenchmark = none :=
    matchTwoTokens_none_of_count _ _ (by rw [hcnt]; decide)
  have e2 : matchPattern .fwBenchmark (preTask ++ t ++ dotCsv) = none := by
    simp only [matchPattern, stripCsvTail_append, Option.some_bind, hm2, Option.map_none']
  have hsw : startsWith preBenchmark (preTask ++ t) = false := by
    have h1 : preTask ++ t = 't' :: ("ask_".toList ++ t) := by
      rw [show preTask = 't' :: "ask_".toList by decide]; rfl
    rw [show preBenchmark = 'b' :: "enchmark_".toList by decide, h1]
    exact startsWith_head_ne _ _ _ _ (by decide)
  have hm3 : matchPrefixToken (preTask ++ t) preBenchmark = none := by
    simp [matchPrefixToken, hsw]
  have e3 : matchPattern .benchmarkOnly (preTask ++ t ++ dotCsv) = none := by
    simp only [matchPattern, stripCsvTail_append, Option.some_bind, hm3, Option.map_none']
  have hm4 : matchTwoTokens (preTask ++ t) sepTask = none :=
    matchTwoTokens_none_of_count _ _ (by rw [hcnt]; decide)
  have e4 : matchPattern .fwTask (preTask ++ t ++ dotCsv) = none := by
    simp only [matchPattern, stripCsvTail_append, Option.some_bind, hm4, Option.map_none']
  have hm5 : matchPrefixToken (preTask ++ t) preTask = some t :=
    matchPrefixToken_complete preTask t (safe_isToken ht)
  have e5 : matchPattern .taskOnly (preTask ++ t ++ dotCsv)
      = some ⟨none, none, some t⟩ := by
    simp only [matchPattern, stripCsvTail_append, Option.some_bind, hm5, Option.map_some']
  simp only [from_file_scope, scorePatterns, List.findSome?_cons, e1, e2, e3, e4, e5]

/-- Scope resolution of a benchmark-only file name, for a safe benchmark
name. -/
theorem from_file_benchmarkOnly (b : List Char) (hb : safeName b = true) :
    from_file_scope (preBenchmark ++ b ++ dotCsv) = some ⟨none, some b, none⟩ := by
  have hnb : '_' ∉ b := safe_not_underscore hb
  have hcnt : (preBenchmark ++ b).count '_' = 1 := by
    simp [List.count_append, List.count_eq_zero.mpr hnb,
      show preBenchmark.count '_' = 1 by decide]
  have hu : '_' ∈ preBenchmark ++ b ++ dotCsv :=
    List.mem_append.mpr (Or.inl (List.mem_append.mpr (Or.inl (by decide))))
  have e1 : matchPattern .resultsFile (preBenchmark ++ b ++ dotCsv) = none := by
    simp only [matchPattern]
    rw [if_neg (ne_results_of_underscore hu)]
  have hm2 : matchTwoTokens (preBenchmark ++ b) sepBenchmark = none :=
    matchTwoTokens_none_of_count _ _ (by rw [hcnt]; decide)
  have e2 : matchPattern .fwBenchmark (preBenchmark ++ b ++ dotCsv) = none := by
    simp only [matchPattern, stripCsvTail_append, Option.some_bind, hm2, Option.map_none']
  have hm3 : matchPrefixToken (preBenchmark ++ b) preBenchmark = some b :=
    matchPrefixToken_complete preBenchmark b (safe_isToken hb)
  have e3 : matchPattern .benchmarkOnly (preBenchmark ++ b ++ dotCsv)
      = some ⟨none, some b, none⟩ := by
    simp only [matchPattern, stripCsvTail_append, Option.some_bind, hm3, Option.map_some']
  simp only [from_file_scope, scorePatterns, List.findSome?_cons, e1, e2, e3]

/-- A safe component is truthy. -/
theorem truthyO_of_safe {s : List Char} (h : safeName s = true) :
    truthyO (some s) = true := by
  unfold safeName at h
  simp only [Bool.and_eq_true] at h
  simp [truthyO, h.1]

/-- C4 (amended): scoreboard file naming round-trips through scope
resolution, with two qualifications the counterexample forces: the
benchmark component is dropped whenever a task is present (the task
branch of the naming function wins, and no pattern carries both), and the
components must keep out of the grammar delimiters: each present
component is a nonempty string of alphanumeric or hyphen characters, the
framework is not the reserved word results when it is the only component,
and not the reserved word benchmark when a task is present.  Under these
conditions resolving the basename produced by the score-file naming
recovers the framework and task exactly, the benchmark exactly when no
task is present, and absent components stay absent. -/
theorem score_file_round_trip (sc : Scope)
    (hf : ∀ s, sc.framework = some s → safeName s = true)
    (hb : ∀ s, sc.benchmark = some s → safeName s = true)
    (ht : ∀ s, sc.task = some s → safeName s = true)
    (hres : sc.task = none → sc.benchmark = none → sc.framework ≠ some resultsName)
    (hbm : sc.task ≠ none → sc.framework ≠ some ("benchmark".toList)) :
    from_file_scope (score_file_name sc)
      = some ⟨sc.framework, if sc.task.isSome then none else sc.benchmark, sc.task⟩ := by
  obtain ⟨fw, bm, tk⟩ := sc
  cases fw with
  | some f =>
      have hsf := hf f rfl
      have htf : truthyO (some f) = true := truthyO_of_safe hsf
      cases tk with
      | some t =>
          have hst := ht t rfl
          have htt : truthyO (some t) = true := truthyO_of_safe hst
          have hfb : f ≠ "benchmark".toList := by
            intro he
            exact hbm (by simp) (by rw [he])
          simp only [score_file_name, htf, htt, if_true, Option.getD_some,
            Option.isSome_some]
          exact from_file_fwTask f t hsf hst hfb
      | none =>
          cases bm with
          | some b1 =>
              have hsb := hb b1 rfl
              have htb : truthyO (some b1) = true := truthyO_of_safe hsb
              have htn : truthyO none = false := rfl
              simpa [score_file_name, htf, htb, htn]
                using from_file_fwBenchmark f b1 hsf hsb
          | none =>
              have hrf : f ≠ resultsName := by
                intro he
                exact hres rfl rfl (by rw [he])
              have htn : truthyO none = false := rfl
              simpa [score_file_name, htf, htn] using from_file_fwOnly f hsf hrf
  | none =>
      cases tk with
      | some t =>
          have hst := ht t rfl
          have htt : truthyO (some t) = true := truthyO_of_safe hst
          have htn : truthyO none = false := rfl
          simpa [score_file_name, htt, htn] using from_file_taskOnly t hst
      | none =>
          cases bm with
          | some b1 =>
              have hsb := hb b1 rfl
              have htb : truthyO (some b1) = true := truthyO_of_safe hsb
              have htn : truthyO none = false := rfl
              simpa [score_file_name, htb, htn] using from_file_benchmarkOnly b1 hsb
          | none =>
              have htn : truthyO none = false := rfl
              simp [score_file_name, htn]
              decide

/-- C4 counterexample: for the scope with benchmark b and task t both
present (framework absent), the naming function uses only the task, and
resolving the resulting basename task underscore t dot csv yields a scope
whose benchmark is absent — the original benchmark component is not
recovered, refuting the claim that every scope round-trips with the same
components. -/
theorem score_file_round_trip_counterexample :
    from_file_scope (score_file_name ⟨none, some "b".toList, some "t".toList⟩)
      ≠ some ⟨none, some "b".toList, some "t".toList⟩ := by decide

/-- C4 witness: a concrete framework-and-benchmark scope round-trips. -/
theorem score_file_round_trip_witness :
    from_file_scope (score_file_name ⟨some "myfw".toList, some "bench1".toList, none⟩)
      = some ⟨some "myfw".toList, some "bench1".toList, none⟩ := by
  have h := score_file_round_trip ⟨some "myfw".toList, some "bench1".toList, none⟩
    (by intro s hs; injection hs with hs; rw [← hs]; decide)
    (by intro s hs; injection hs with hs; rw [← hs]; decide)
    (by intro s hs; exact Option.noConfusion hs)
    (by intro _ h2; exact Option.noConfusion h2)
    (by intro h1; exact absurd rfl h1)
  simpa using h

/-- findSome? skips a head the function rejects. -/
theorem findSome?_cons_none {α β : Type} (f : α → Option β) (a : α) (l : List α)
    (h : f a = none) : List.findSome? f (a :: l) = List.findSome? f l := by
  rw [List.findSome?_cons, h]

/-- findSome? answers at a head the function accepts. -/
theorem findSome?_cons_some {α β : Type} (f : α → Option β) (a : α) (l : List α)
    (b : β) (h : f a = some b) : List.findSome? f (a :: l) = some b := by
  rw [List.findSome?_cons, h]

/-- C5: scope resolution tries the six patterns in their fixed priority
order: the resolver answers none exactly when no pattern matches, and
whenever the patterns before position i all fail and pattern i matches,
the resolver returns the scope of pattern i — the first matching pattern
decides, even if a later one would also match. -/
theorem from_file_first_match_wins (b : List Char) :
    (from_file_scope b = none ↔ ∀ p ∈ scorePatterns, matchPattern p b = none) ∧
    (∀ i : ℕ, ∀ hi : i < scorePatterns.length,
      (∀ j : ℕ, ∀ hj : j < i,
        matchPattern (scorePatterns.get ⟨j, Nat.lt_trans hj hi⟩) b = none) →
      (matchPattern (scorePatterns.get ⟨i, hi⟩) b).isSome = true →
      from_file_scope b = matchPattern (scorePatterns.get ⟨i, hi⟩) b) := by
  constructor
  · rw [from_file_scope]
    exact List.findSome?_eq_none_iff
  · intro i hi hprev hsome
    obtain ⟨s, hs⟩ := Option.isSome_iff_exists.mp hsome
    rw [hs]
    have hlen : scorePatterns.length = 6 := rfl
    rw [hlen] at hi
    interval_cases i
    · have hs0 : matchPattern ScorePattern.resultsFile b = some s := hs
      unfold from_file_scope scorePatterns
      rw [findSome?_cons_some (fun p => matchPattern p b) ScorePattern.resultsFile _ _ hs0]
    · have h0 : matchPattern ScorePattern.resultsFile b = none := hprev 0 (by omega)
      have hs1 : matchPattern ScorePattern.fwBenchmark b = some s := hs
      unfold from_file_scope scorePatterns
      rw [findSome?_cons_none (fun p => matchPattern p b) ScorePattern.resultsFile _ h0, findSome?_cons_some (fun p => matchPattern p b) ScorePattern.fwBenchmark _ _ hs1]
    · have h0 : matchPattern ScorePattern.resultsFile b = none := hprev 0 (by omega)
      have h1 : matchPattern ScorePattern.fwBenchmark b = none := hprev 1 (by omega)
      have hs2 : matchPattern ScorePattern.benchmarkOnly b = some s := hs
      unfold from_file_scope scorePatterns
      rw [findSome?_cons_none (fun p => matchPattern p b) ScorePattern.resultsFile _ h0, findSome?_cons_none (fun p => matchPattern p b) ScorePattern.fwBenchmark _ h1,
        findSome?_cons_some (fun p => matchPattern p b) ScorePattern.benchmarkOnly _ _ hs2]
    · have h0 : matchPattern ScorePattern.resultsFile b = none := hprev 0 (by omega)
      have h1 : matchPattern ScorePattern.fwBenchmark b = none := hprev 1 (by omega)
      have h2 : matchPattern ScorePattern.benchmarkOnly b = none := hprev 2 (by omega)
      have hs3 : matchPattern ScorePattern.fwTask b = some s := hs
      unfold from_file_scope scorePatterns
      rw [findSome?_cons_none (fun p => matchPattern p b) ScorePattern.resultsFile _ h0, findSome?_cons_none (fun p => matchPattern p b) ScorePattern.fwBenchmark _ h1,
        findSome?_cons_none (fun p => matchPattern p b) ScorePattern.benchmarkOnly _ h2, findSome?_cons_some (fun p => matchPattern p b) ScorePattern.fwTask _ _ hs3]
    · have h0 : matchPattern ScorePattern.resultsFile b = none := hprev 0 (by omega)
      have h1 : matchPattern ScorePattern.fwBenchmark b = none := hprev 1 (by omega)
      have h2 : matchPattern ScorePattern.benchmarkOnly b = none := hprev 2 (by omega)
      have h3 : matchPattern ScorePattern.fwTask b = none := hprev 3 (by omega)
      have hs4 : matchPattern ScorePattern.taskOnly b = some s := hs
      unfold from_file_scope scorePatterns
      rw [findSome?_cons_none (fun p => matchPattern p b) ScorePattern.resultsFile _ h0, findSome?_cons_none (fun p => matchPattern p b) ScorePattern.fwBenchmark _ h1,
        findSome?_cons_none (fun p => matchPattern p b) ScorePattern.benchmarkOnly _ h2, findSome?_cons_none (fun p => matchPattern p b) ScorePattern.fwTask _ h3,
        findSome?_cons_some (fun p => matchPattern p b) ScorePattern.taskOnly _ _ hs4]
    · have h0 : matchPattern ScorePattern.resultsFile b = none := hprev 0 (by omega)
      have h1 : matchPattern ScorePattern.fwBenchmark b = none := hprev 1 (by omega)
      have h2 : matchPattern ScorePattern.benchmarkOnly b = none := hprev 2 (by omega)
      have h3 : matchPattern ScorePattern.fwTask b = none := hprev 3 (by omega)
      have h4 : matchPattern ScorePattern.taskOnly b = none := hprev 4 (by omega)
      have hs5 : matchPattern ScorePattern.fwOnly b = some s := hs
      unfold from_file_scope scorePatterns
      rw [findSome?_cons_none (fun p => matchPattern p b) ScorePattern.resultsFile _ h0, findSome?_cons_none (fun p => matchPattern p b) ScorePattern.fwBenchmark _ h1,
        findSome?_cons_none (fun p => matchPattern p b) ScorePattern.benchmarkOnly _ h2, findSome?_cons_none (fun p => matchPattern p b) ScorePattern.fwTask _ h3,
        findSome?_cons_none (fun p => matchPattern p b) ScorePattern.taskOnly _ h4, findSome?_cons_some (fun p => matchPattern p b) ScorePattern.fwOnly _ _ hs5]

/-- C5 witness: the name x benchmark y dot csv matches both the second
pattern and the later framework-only pattern; the resolver returns the
second pattern result because it comes first. -/
theorem from_file_first_match_wins_witness :
    from_file_scope ("x_benchmark_y.csv".toList)
        = matchPattern ScorePattern.fwBenchmark ("x_benchmark_y.csv".toList)
      ∧ (matchPattern ScorePattern.fwOnly ("x_benchmark_y.csv".toList)).isSome = true
      ∧ from_file_scope ("x_benchmark_y.csv".toList)
        = some ⟨some "x".toList, some "y".toList, none⟩ := by
  refine ⟨?_, by decide, by decide⟩
  have h := (from_file_first_match_wins ("x_benchmark_y.csv".toList)).2 1 (by decide)
    (fun j hj => by
      have hj0 : j = 0 := by omega
      subst hj0
      exact (by decide :
        matchPattern ScorePattern.resultsFile ("x_benchmark_y.csv".toList) = none))
    (by decide)
  exact h

/-- C1: whatever Result variant evaluates the metrics and whatever the
metric list is, when compute_scores returns a record, the result
attribute of that record equals the value recorded for the first metric
in the list. -/
theorem compute_scores_result_is_first_metric
    (framework_definition : String → Option FrameworkDef)
    (run_mode utc task : String) (fold : ℤ) (result : ResultV)
    (framework_name m0 : String) (rest : List String) (ns : Ns)
    (h : compute_scores framework_definition run_mode utc task fold result
      framework_name (m0 :: rest) = .ok ns) :
    ns "result" = ns m0 := by
  unfold compute_scores at h
  cases hd : framework_definition framework_name with
  | none =>
      rw [hd] at h
      simp [Bind.bind, Except.bind] at h
  | some d =>
      rw [hd] at h
      simp only [Bind.bind, Except.bind] at h
      split at h
      · exact absurd h (by simp)
      · rename_i scores hfold
        split at h
        · rename_i v hv
          simp only [Except.ok.injEq] at h
          subst h
          unfold nsSet
          by_cases hm : m0 = "result"
          · subst hm; rfl
          · simp [hm, hv]
        · exact absurd h (by simp)

/-- C1 witness: a concrete compute_scores run whose returned record has
its result attribute equal to the value of the first metric. -/
theorem compute_scores_result_is_first_metric_witness :
    ∃ ns : Ns, compute_scores (fun _ => some ⟨"1.0"⟩) "local" "u" "t" 0
        ResultV.noResult "fw" ["acc"] = .ok ns
      ∧ ns "result" = ns "acc" := by
  refine ⟨_, rfl, ?_⟩
  exact compute_scores_result_is_first_metric (fun _ => some ⟨"1.0"⟩) "local" "u" "t" 0
    ResultV.noResult "fw" "acc" [] _ rfl

/-- C2 counterexample: NoResult.evaluate on the metric name f1 raises
(an AttributeError from reading the unset type attribute while formatting
the unsupported-metric message) instead of returning the NA sentinel, so
evaluate does not return NA for every metric name. -/
theorem noResult_evaluate_counterexample :
    ResultV.evaluate ResultV.noResult "f1" = .error (.attributeError "type") ∧
    ResultV.evaluate ResultV.noResult "f1" ≠ .ok (.vstr "NA") := by
  constructor <;> decide

/-- C2 (amended): NoResult.evaluate returns the NA sentinel for each of
the five supported metric names acc, logloss, mse, rmse, auc, but it is
not raise-free on other names: the hasattr-true non-metric names
missing_result and evaluate are called as zero-argument metrics and raise
TypeError, and every name outside the attribute surface (not a metric,
not missing_result or evaluate, not a double-underscore object-protocol
name) fails hasattr and raises the AttributeError from reading the unset
type attribute while the unsupported-metric message is formatted.
Outcomes of calling double-underscore attributes vary by name and Python
version and are left outside this statement. -/
theorem noResult_evaluate_na (m : String) :
    (m ∈ supportedMetrics → ResultV.evaluate ResultV.noResult m = .ok (.vstr "NA")) ∧
    ((m = "missing_result" ∨ m = "evaluate") →
      ∃ msg, ResultV.evaluate ResultV.noResult m = .error (.typeError msg)) ∧
    (m ∉ supportedMetrics → m ≠ "missing_result" → m ≠ "evaluate" →
      dunderName m = false →
      ResultV.evaluate ResultV.noResult m = .error (.attributeError "type")) := by
  refine ⟨?_, ?_, ?_⟩
  · intro hm
    simp [ResultV.evaluate, hm]
  · rintro (rfl | rfl)
    · exact ⟨_, rfl⟩
    · exact ⟨_, rfl⟩
  · intro hm h1 h2 h3
    simp [ResultV.evaluate, hm, h1, h2, h3]

/-- C2 witness: the amended statement at the concrete names acc,
missing_result and zzz. -/
theorem noResult_evaluate_na_witness :
    ResultV.evaluate ResultV.noResult "acc" = .ok (.vstr "NA") ∧
    (∃ msg, ResultV.evaluate ResultV.noResult "missing_result"
      = .error (.typeError msg)) ∧
    ResultV.evaluate ResultV.noResult "zzz" = .error (.attributeError "type") :=
  ⟨(noResult_evaluate_na "acc").1 (by decide),
   (noResult_evaluate_na "missing_result").2.1 (Or.inl rfl),
   (noResult_evaluate_na "zzz").2.2 (by decide) (by decide) (by decide) (by decide)⟩

/-- The backup name differs from the original path. -/
theorem backup_name_ne (p : String) : backup_name p ≠ p := by
  intro he
  have hlen := congrArg String.length he
  rw [backup_name, String.length_append] at hlen
  have h4 : (".bak" : String).length = 4 := rfl
  rw [h4] at hlen
  omega

/-- C3: a Scoreboard.save on a scope whose score file exists preserves
the pre-existing content: with append false the old content is moved to
the backup name before the fresh write, and with append true the data
rows are appended after the old content without a header line. -/
theorem save_backs_up_and_appends (b : Scoreboard) (fs : FS) (c : List Line)
    (h : fs b.score_file = some c) :
    (b.save false fs) (backup_name b.score_file) = some c ∧
    (b.save true fs) b.score_file
      = some (c ++ (as_data_frame b.scores).rows.map Line.data) := by
  have hbn := backup_name_ne b.score_file
  constructor
  · simp [Scoreboard.save, save_df, write_csv, backup_file, h, hbn]
  · simp [Scoreboard.save, save_df, write_csv, backup_file, h, hbn]

/-- C3 witness: the theorem applied to a concrete board and filesystem
holding one existing scoreboard file. -/
theorem save_backs_up_and_appends_witness :
    (Scoreboard.save ⟨[], none, none, none, "scores"⟩ false
        (fun p => if p = "scores/results.csv" then some [Line.header ["task"]] else none))
      (backup_name (Scoreboard.score_file ⟨[], none, none, none, "scores"⟩))
      = some [Line.header ["task"]] :=
  (save_backs_up_and_appends ⟨[], none, none, none, "scores"⟩
    (fun p => if p = "scores/results.csv" then some [Line.header ["task"]] else none)
    [Line.header ["task"]] (by decide)).1

/-- The ranking credit of one pair lies in the unit interval. -/
theorem aucPairScore_mem_unit (p n : ℚ) :
    0 ≤ aucPairScore p n ∧ aucPairScore p n ≤ 1 := by
  unfold aucPairScore
  split_ifs <;> norm_num

/-- The pair-counting ROC-AUC lies in the unit interval. -/
theorem roc_auc_score_mem_unit (yTrue : List ℤ) (yScore : List ℚ) :
    0 ≤ roc_auc_score yTrue yScore ∧ roc_auc_score yTrue yScore ≤ 1 := by
  unfold roc_auc_score
  set pos := aucPos yTrue yScore
  set neg := aucNeg yTrue yScore
  have hinner_nonneg : ∀ p : ℚ, 0 ≤ (neg.map (fun n => aucPairScore p n)).sum := by
    intro p
    apply List.sum_nonneg
    intro x hx
    obtain ⟨n, -, rfl⟩ := List.mem_map.mp hx
    exact (aucPairScore_mem_unit p n).1
  have hinner_le : ∀ p : ℚ, (neg.map (fun n => aucPairScore p n)).sum ≤ (neg.length : ℚ) := by
    intro p
    have := List.sum_le_card_nsmul (neg.map (fun n => aucPairScore p n)) 1 (by
      intro x hx
      obtain ⟨n, -, rfl⟩ := List.mem_map.mp hx
      exact (aucPairScore_mem_unit p n).2)
    simpa [nsmul_eq_mul] using this
  have hnum_nonneg : 0 ≤ (pos.map (fun p =>
      (neg.map (fun n => aucPairScore p n)).sum)).sum := by
    apply List.sum_nonneg
    intro x hx
    obtain ⟨p, -, rfl⟩ := List.mem_map.mp hx
    exact hinner_nonneg p
  have hnum_le : (pos.map (fun p => (neg.map (fun n => aucPairScore p n)).sum)).sum
      ≤ (pos.length : ℚ) * (neg.length : ℚ) := by
    have := List.sum_le_card_nsmul (pos.map (fun p =>
      (neg.map (fun n => aucPairScore p n)).sum)) (neg.length : ℚ) (by
      intro x hx
      obtain ⟨p, -, rfl⟩ := List.mem_map.mp hx
      exact hinner_le p)
    simpa [nsmul_eq_mul] using this
  rcases eq_or_ne ((pos.length : ℚ) * (neg.length : ℚ)) 0 with h0 | h0
  · rw [h0, div_zero]
    norm_num
  · have hpos : 0 < (pos.length : ℚ) * (neg.length : ℚ) := by
      rcases lt_or_eq_of_le (show (0 : ℚ) ≤ (pos.length : ℚ) * (neg.length : ℚ) by positivity)
        with hlt | heq
      · exact hlt
      · exact absurd heq.symm h0
    constructor
    · exact div_nonneg hnum_nonneg (le_of_lt hpos)
    · rw [div_le_one hpos]
      exact hnum_le

/-- C6: for every successfully constructed ClassificationResult, auc
raises the typed binomial-only ValueError exactly when the number of
class columns (all columns except the last two) is not 2, and with
exactly 2 class columns it returns the ROC-AUC of the probability column
at index 1, a rational in the closed unit interval. -/
theorem classification_auc_binomial_guard (df : DataFrame) (c : CData)
    (h : ClassificationResult.init df = .ok c) :
    (df.cols.length - 2 ≠ 2 →
      ClassificationResult.auc c
        = .error (.valueError "AUC metric is only supported for binary classification")) ∧
    (df.cols.length - 2 = 2 →
      ∃ q : ℚ, ClassificationResult.auc c = .ok (.vrat q) ∧ 0 ≤ q ∧ q ≤ 1 ∧
        q = roc_auc_score c.truth (c.probabilities.map (fun row => row.getD 1 0))) := by
  have hclen : df.cols.dropLast.dropLast.length = df.cols.length - 2 := by
    simp only [List.length_dropLast]
    omega
  simp only [ClassificationResult.init, Result.base_init, Bind.bind, Except.bind] at h
  split at h
  · exact absurd h (by simp)
  · split at h
    · exact absurd h (by simp)
    · rename_i probs hprobs
      split at h
      · exact absurd h (by simp)
      · rename_i truthv htruth
        split at h
        · exact absurd h (by simp)
        · rename_i predsv hpreds
          simp only [Except.ok.injEq] at h
          subst h
          constructor
          · intro hne
            have hlen2 : ¬ df.cols.dropLast.dropLast.length = 2 := by
              rw [hclen]; exact hne
            have h4 : ¬ df.cols.length = 4 := by omega
            simp [ClassificationResult.auc, hlen2, h4]
          · intro heq
            have hlen2 : df.cols.dropLast.dropLast.length = 2 := by
              rw [hclen]; exact heq
            have h4 : df.cols.length = 4 := by omega
            refine ⟨_, ?_, (roc_auc_score_mem_unit _ _).1,
              (roc_auc_score_mem_unit _ _).2, rfl⟩
            simp [ClassificationResult.auc, hlen2, h4]

/-- C6 witness: a concrete two-class artifact whose auc is a unit-interval
rational. -/
theorem classification_auc_binomial_guard_witness :
    ∃ c : CData, ClassificationResult.init
        ⟨["a", "b", "predictions", "truth"],
          [[Value.vrat (9/10), Value.vrat (1/10), Value.vstr "a", Value.vstr "a"],
           [Value.vrat (2/10), Value.vrat (8/10), Value.vstr "b", Value.vstr "b"]]⟩
        = .ok c ∧
      ∃ q : ℚ, ClassificationResult.auc c = .ok (.vrat q) ∧ 0 ≤ q ∧ q ≤ 1 := by
  refine ⟨_, rfl, ?_⟩
  obtain ⟨q, hq, h0, h1, -⟩ := (classification_auc_binomial_guard
    ⟨["a", "b", "predictions", "truth"],
      [[Value.vrat (9/10), Value.vrat (1/10), Value.vstr "a", Value.vstr "a"],
       [Value.vrat (2/10), Value.vrat (8/10), Value.vstr "b", Value.vstr "b"]]⟩
    _ rfl).2 (by decide)
  exact ⟨q, hq, h0, h1⟩

/-- C7 counterexample: materializing the empty record set returns the
empty frame unchanged through the early df.empty return, so its column
list is empty rather than the fixed columns followed by the sorted
dynamic columns. -/
theorem as_data_frame_empty_counterexample :
    (as_data_frame ([] : List Rec)).cols
      ≠ fixedCols ++ List.insertionSort (fun a b => a ≤ b)
          ((to_data_frame ([] : List Rec)).cols.filter
            (fun c => !(fixedCols.contains c))) := by
  decide

/-- C7 (amended): for every record set whose materialized frame is
nonempty (at least one row and at least one column), the output columns
are exactly the fixed columns task, framework, fold, result, mode,
version, utc in that order, followed by the remaining columns in sorted
order — a sorted permutation of the non-fixed columns — regardless of the
insertion order of metric columns across records; the empty frame is
returned unchanged by the early return. -/
theorem as_data_frame_column_layout (records : List Rec)
    (h1 : (to_data_frame records).rows ≠ [])
    (h2 : (to_data_frame records).cols ≠ []) :
    ∃ dyn : List String, (as_data_frame records).cols = fixedCols ++ dyn
      ∧ List.Sorted (fun a b : String => a ≤ b) dyn
      ∧ List.Perm dyn ((to_data_frame records).cols.filter
          (fun c => !(fixedCols.contains c))) := by
  refine ⟨List.insertionSort (fun a b => a ≤ b)
    ((to_data_frame records).cols.filter (fun c => !(fixedCols.contains c))), ?_, ?_, ?_⟩
  · simp only [as_data_frame]
    rw [if_neg]
    · rfl
    · simp [List.isEmpty_iff, h1, h2]
  · exact List.sorted_insertionSort _ _
  · exact List.perm_insertionSort _ _

/-- C7 witness: the amended layout at a concrete one-record board. -/
theorem as_data_frame_column_layout_witness :
    ∃ dyn : List String,
      (as_data_frame [[("acc", Value.vrat 1)]]).cols = fixedCols ++ dyn
        ∧ List.Sorted (fun a b : String => a ≤ b) dyn
        ∧ List.Perm dyn ((to_data_frame [[("acc", Value.vrat 1)]]).cols.filter
            (fun c => !(fixedCols.contains c))) :=
  as_data_frame_column_layout [[("acc", Value.vrat 1)]] (by decide) (by decide)

/-- C8: loading predictions returns NoResult exactly when the path does
not reference an existing file, and otherwise the variant is decided
solely by column count — any successfully returned result is a
ClassificationResult when the artifact has more than 2 columns and a
RegressionResult in every other case. -/
theorem load_predictions_dispatch (fs : String → Option DataFrame) (path : String) :
    (fs path = none → load_predictions fs path = .ok .noResult) ∧
    (∀ df : DataFrame, fs path = some df → ∀ r : ResultV,
      load_predictions fs path = .ok r →
      ((df.cols.length > 2 → ∃ c, r = .classification c) ∧
       (¬ df.cols.length > 2 → ∃ d, r = .regression d))) := by
  constructor
  · intro h
    simp [load_predictions, h]
  · intro df hdf r hr
    simp only [load_predictions, hdf] at hr
    constructor
    · intro hgt
      rw [if_pos hgt] at hr
      cases hi : ClassificationResult.init df with
      | error e => rw [hi] at hr; simp [Except.map] at hr
      | ok cdata =>
          rw [hi] at hr
          simp only [Except.map, Except.ok.injEq] at hr
          exact ⟨cdata, hr.symm⟩
    · intro hle
      rw [if_neg hle] at hr
      cases hi : RegressionResult.init df with
      | error e => rw [hi] at hr; simp [Except.map] at hr
      | ok rdata =>
          rw [hi] at hr
          simp only [Except.map, Except.ok.injEq] at hr
          exact ⟨rdata, hr.symm⟩

/-- C8 witness: a missing path degrades to NoResult and a 4-column
artifact loads as a ClassificationResult. -/
theorem load_predictions_dispatch_witness :
    load_predictions (fun _ => none) "p.csv" = .ok .noResult ∧
    (∃ c, load_predictions (fun _ => some ⟨["a", "b", "p", "t"], []⟩) "p.csv"
      = .ok (.classification c)) := by
  constructor
  · exact (load_predictions_dispatch (fun _ => none) "p.csv").1 rfl
  · obtain ⟨c, hc⟩ := ((load_predictions_dispatch
      (fun _ => some ⟨["a", "b", "p", "t"], []⟩) "p.csv").2
      ⟨["a", "b", "p", "t"], []⟩ rfl _ rfl).1 (by decide)
    refine ⟨c, ?_⟩
    rw [← hc]
    rfl

/-- A successful float cast yields a float-typed value. -/
theorem castFloat_isFloat (v w : Value) (h : Value.castFloat v = .ok w) :
    w.isFloat = true := by
  cases v with
  | vint n => simp only [Value.castFloat, Except.ok.injEq] at h; subst h; rfl
  | vrat q => simp only [Value.castFloat, Except.ok.injEq] at h; subst h; rfl
  | vnan => simp only [Value.castFloat, Except.ok.injEq] at h; subst h; rfl
  | vstr s => exact absurd h (by simp [Value.castFloat])
  | vsqrt q => exact absurd h (by simp [Value.castFloat])
  | vblackbox t => exact absurd h (by simp [Value.castFloat])

/-- A successful elementwise run of a fallible function gives only
outputs the function can produce. -/
theorem mapM_ok_forall {α β : Type} (f : α → Except EvalError β) (P : β → Prop)
    (hf : ∀ a b, f a = .ok b → P b) :
    ∀ (l : List α) (l2 : List β), l.mapM f = .ok l2 → ∀ b ∈ l2, P b := by
  intro l
  induction l with
  | nil =>
      intro l2 h b hb
      simp only [List.mapM_nil, pure, Except.pure, Except.ok.injEq] at h
      subst h
      simp at hb
  | cons a t ih =>
      intro l2 h b hb
      rw [List.mapM_cons] at h
      cases hfa : f a with
      | error e => rw [hfa] at h; simp [Bind.bind, Except.bind] at h
      | ok b0 =>
          rw [hfa] at h
          simp only [Bind.bind, Except.bind] at h
          cases hmt : t.mapM f with
          | error e => rw [hmt] at h; simp at h
          | ok bs =>
              rw [hmt] at h
              simp only [pure, Except.pure, Except.ok.injEq] at h
              subst h
              rcases List.mem_cons.mp hb with rfl | hbs
              · exact hf a b hfa
              · exact ih bs hmt b hbs

/-- C9 counterexample: constructing a RegressionResult from the 2-column
artifact holding the integer row 3, 4 casts the truth vector to float but
leaves the predictions vector as the loaded integers, refuting the claim
that both vectors are cast to floating point. -/
theorem regression_predictions_not_cast_counterexample :
    (RegressionResult.init ⟨["predictions", "truth"], [[Value.vint 3, Value.vint 4]]⟩).map
        (fun r => (r.truth, r.predictions))
      = .ok ([Value.vrat 4], [Value.vint 3]) ∧
    (RegressionResult.init ⟨["predictions", "truth"], [[Value.vint 3, Value.vint 4]]⟩).map
        (fun r => r.predictions.all Value.isFloat)
      = .ok false := by
  constructor <;> decide

/-- C9 (amended): for every 2-column artifact from which a
RegressionResult is successfully constructed, the truth vector is cast to
floating point while the predictions vector is kept exactly as loaded
from the first column. -/
theorem regression_init_casts_truth_only (df : DataFrame) (r : RData)
    (hcols : df.cols.length = 2) (h : RegressionResult.init df = .ok r) :
    (∀ v ∈ r.truth, v.isFloat = true) ∧ r.predictions = df.colAt 0 := by
  simp only [RegressionResult.init, Result.base_init, Bind.bind, Except.bind] at h
  rw [if_neg (by omega)] at h
  split at h
  · exact absurd h (by simp)
  · rename_i base hbase
    split at h
    · exact absurd h (by simp)
    · rename_i truthv htruth
      simp only [Except.ok.injEq] at h
      subst h
      have hbase2 : base = ⟨df.colAt (df.cols.length - 1),
          df.colAt (df.cols.length - 2), supportedMetrics⟩ := by
        injection hbase with hb
        exact hb.symm
      constructor
      · intro v hv
        exact mapM_ok_forall Value.castFloat (fun w => w.isFloat = true)
          castFloat_isFloat _ truthv htruth v hv
      · show base.predictions = df.colAt 0
        rw [hbase2]
        show df.colAt (df.cols.length - 2) = df.colAt 0
        rw [hcols]

/-- C9 witness: the amended statement at a concrete 2-column artifact. -/
theorem regression_init_casts_truth_only_witness :
    ∃ r : RData, RegressionResult.init
        ⟨["predictions", "truth"], [[Value.vrat (1/2), Value.vint 7]]⟩ = .ok r
      ∧ (∀ v ∈ r.truth, v.isFloat = true)
      ∧ r.predictions
        = DataFrame.colAt ⟨["predictions", "truth"], [[Value.vrat (1/2), Value.vint 7]]⟩ 0 := by
  refine ⟨_, rfl, ?_⟩
  exact regression_init_casts_truth_only
    ⟨["predictions", "truth"], [[Value.vrat (1/2), Value.vint 7]]⟩ _ (by decide) rfl

/-- C10: for every path whose basename matches the predictions file-name
grammar but which does not reference an existing file, the loaded result
is a NoResult whose constructor set only the missing-result sentinel, so
score_from_predictions_file raises an AttributeError when it reads
result.metrics, instead of returning a record of NA values or null. -/
theorem score_from_predictions_file_noresult_raises
    (fs : String → Option DataFrame) (framework_definition : String → Option FrameworkDef)
    (run_mode utc path : String)
    (hmatch : (predictions_name_match path.toList).isSome = true)
    (hmiss : fs path = none) :
    score_from_predictions_file fs framework_definition run_mode utc path
      = .error (.attributeError "metrics") := by
  obtain ⟨⟨fw, task, fold⟩, hm⟩ := Option.isSome_iff_exists.mp hmatch
  unfold score_from_predictions_file
  rw [hm]
  simp [load_predictions, hmiss, ResultV.metricsAttr, Bind.bind, Except.bind]

/-- C10 witness: a well-formed predictions name over a filesystem without
the file raises the metrics AttributeError. -/
theorem score_from_predictions_file_noresult_raises_witness :
    score_from_predictions_file (fun _ => none) (fun _ => some ⟨"1.0"⟩) "local" "u"
      "foo_bar_0.csv" = .error (.attributeError "metrics") :=
  score_from_predictions_file_noresult_raises _ _ _ _ _ (by decide) rfl

end AutoML
